import Mathlib

/-!
Shallow embedding of the safety-scoring pipeline of the
healthcare-hallucination-detection repository: attribution scoring
(`src/safety/attribution.py`), weak-sentence detection, consistency
checking (`src/safety/consistency.py`), semantic-entropy estimation
(`src/safety/entropy.py`), query decomposition and multi-stage
retrieval (`src/safety/multi_stage.py`), external fact-checking
(`src/safety/fact_checker.py`, `src/safety/external_sources.py`) and
the aggregating safety checker (`src/safety/safety_checker.py`).

Collaborator services (retrieval engine, language model, embedding
encoder, literature search) are passed in as function parameters.
Python float arithmetic is idealised over the real numbers; Python
strings are Lean `String`s, processed through explicit structural
recursion on their character lists.
-/

namespace SafetyPipeline

/-! ### Text utilities: Python `re.split`, `str.strip`, line parsing -/

/-- Sentence-terminal characters of the `re.split(r'[.!?]', ...)` pattern. -/
def isTerm (c : Char) : Bool := c = '.' || c = '!' || c = '?'

/-- Split a character list at every `.`, `!` or `?`, mirroring Python
`re.split(r'[.!?]', s)`: separators are dropped, empty pieces kept. -/
def splitOnTerm : List Char → List (List Char)
  | [] => [[]]
  | c :: cs =>
    if isTerm c then [] :: splitOnTerm cs
    else
      match splitOnTerm cs with
      | [] => [[c]]
      | h :: t => (c :: h) :: t

/-- Python `str.strip()`: drop leading and trailing whitespace. -/
def stripChars (l : List Char) : List Char :=
  ((l.dropWhile Char.isWhitespace).reverse.dropWhile Char.isWhitespace).reverse

/-- Python `str.strip()` on a `String`. -/
def strip (s : String) : String := ⟨stripChars s.data⟩

/-- Sentence splitting of `attribution.py` (`check_answer_support` and
`find_weak_sentences`): split on `[.!?]`, strip each piece, keep the
non-empty ones. -/
def splitSentences (s : String) : List String :=
  (((splitOnTerm s.data).map stripChars).filter (fun l => l ≠ [])).map
    (fun l => (⟨l⟩ : String))

/-- Split a character list at every newline, mirroring Python
`str.split('\n')`. -/
def splitOnNl : List Char → List (List Char)
  | [] => [[]]
  | c :: cs =>
    if c = '\n' then [] :: splitOnNl cs
    else
      match splitOnNl cs with
      | [] => [[c]]
      | h :: t => (c :: h) :: t

/-! ### Embedding-vector arithmetic

The encoder collaborator maps each text to a vector of floats; the
source compares vectors with `sklearn.metrics.pairwise.cosine_similarity`
(which yields `0` when a vector has norm `0`, matching Lean's division
by zero). -/

/-- Dot product of two float vectors (truncating at the shorter one). -/
def dotp (u v : List ℝ) : ℝ := (List.zipWith (· * ·) u v).sum

/-- Cosine similarity of two embedding vectors. -/
noncomputable def cosineSim (u v : List ℝ) : ℝ :=
  dotp u v / (Real.sqrt (dotp u u) * Real.sqrt (dotp v v))

/-- Python `np.max` over a (nonempty in all call sites) list of floats. -/
noncomputable def maxD : List ℝ → ℝ
  | [] => 0
  | a :: t => t.foldl max a

/-- Python `np.mean` over a list of floats. -/
noncomputable def mean (l : List ℝ) : ℝ := l.sum / l.length

/-! ### Attribution scorer (`src/safety/attribution.py`) -/

/-- Embedding of `check_answer_support`: split the answer into
sentences; if there are no sentences or no source chunks return
`(0.0, [])`; otherwise score each sentence by its maximal cosine
similarity against all source-chunk embeddings and return the mean
together with the per-sentence scores.  `encode1` is the encoder
applied to a single text (the source encodes a list element-wise). -/
noncomputable def check_answer_support (answer : String) (source_chunks : List String)
    (encode1 : String → List ℝ) : ℝ × List ℝ :=
  let sentences := splitSentences answer
  if sentences = [] ∨ source_chunks = [] then (0, [])
  else
    let source_embeddings := source_chunks.map encode1
    let sentence_scores :=
      (sentences.map encode1).map fun e => maxD (source_embeddings.map fun s => cosineSim e s)
    (mean sentence_scores, sentence_scores)

/-- One entry of the list returned by `find_weak_sentences`. -/
structure WeakSentence where
  sentence : String
  score : ℝ
  index : ℕ

/-- Embedding of `find_weak_sentences`: the sentences whose best
similarity against the sources is strictly below the threshold. -/
noncomputable def find_weak_sentences (answer : String) (source_chunks : List String)
    (encode1 : String → List ℝ) (threshold : ℝ) : List WeakSentence :=
  let sentences := splitSentences answer
  if sentences = [] ∨ source_chunks = [] then []
  else
    let source_embeddings := source_chunks.map encode1
    (sentences.map encode1).enum.filterMap fun p =>
      let best := maxD (source_embeddings.map fun s => cosineSim p.2 s)
      if best < threshold then some ⟨sentences.getD p.1 "", best, p.1⟩ else none

/-! ### Consistency checker (`src/safety/consistency.py`) -/

/-- The similarity values collected by the nested loops
`for i ... for j in range(i+1, ...)`: `f` applied to every unordered
pair of list elements, in loop order. -/
def pairSims {α : Type} (f : α → α → ℝ) : List α → List ℝ
  | [] => []
  | a :: rest => rest.map (f a) ++ pairSims f rest

/-- Scoring part of `check_consistency`: `1.0` when fewer than two
responses were collected, otherwise the mean pairwise cosine
similarity of the response embeddings. -/
noncomputable def consistencyScore (encode1 : String → List ℝ) (responses : List String) : ℝ :=
  if responses.length < 2 then 1
  else mean (pairSims cosineSim (responses.map encode1))

/-- Embedding of `check_consistency`: the retrieval engine is queried
`num_tries` times (call `i` of the possibly non-deterministic engine is
modelled as `engine i`), and the collected responses are scored. -/
noncomputable def check_consistency (engine : ℕ → String) (encode1 : String → List ℝ)
    (num_tries : ℕ) : ℝ × List String :=
  let responses := (List.range num_tries).map engine
  (consistencyScore encode1 responses, responses)

/-! ### Semantic-entropy estimator (`src/safety/entropy.py`) -/

/-- State model for the sampling loop of `calculate_semantic_entropy`.
The shared language-model handle is reduced to its `temperature`
attribute: `some t` when the handle has the attribute (value `t`),
`none` when `hasattr(llm, 'temperature')` is false.  Each iteration
reads `getattr(llm, 'temperature', 0.1)`, sets the attribute to the
elevated `temperature`, queries the engine (which observes the current
handle state), and restores the attribute.  The result is the list of
responses, the final handle state, and the trace of handle states seen
by the engine at each query. -/
def entropySampleLoop (query : Option ℚ → String) (temperature : ℚ) :
    ℕ → Option ℚ → List String × Option ℚ × List (Option ℚ)
  | 0, st => ([], st, [])
  | n + 1, st =>
    let originalTemp := st.getD (1/10)
    let st1 := if st.isSome then some temperature else st
    let response := query st1
    let st2 := if st1.isSome then some originalTemp else st1
    let r := entropySampleLoop query temperature n st2
    (response :: r.1, r.2.1, st1 :: r.2.2)

/-- Sentence extraction of `calculate_sentence_semantic_entropy` for a
single response: split on `[.!?]`, keep pieces whose strip is nonempty
and whose raw length is at least 10, and strip the kept pieces. -/
def entropySentencesOf (response : String) : List String :=
  ((splitOnTerm response.data).filter
      (fun l => stripChars l ≠ [] ∧ 10 ≤ l.length)).map
    (fun l => (⟨stripChars l⟩ : String))

/-- All sentences of all responses, concatenated in order. -/
def extractEntropySentences (responses : List String) : List String :=
  responses.flatMap entropySentencesOf

/-- Inner loop of the greedy clustering: scan the candidate indices
`js` (all `j` with `i < j < n`), skipping already-clustered ones, and
attach to the cluster of seed `i` every candidate whose similarity to
the seed exceeds `0.7`. -/
noncomputable def innerScan (sim : ℕ → ℕ → ℝ) (i : ℕ) :
    List ℕ → Finset ℕ → List ℕ × Finset ℕ
  | [], used => ([], used)
  | j :: js, used =>
    if j ∈ used then innerScan sim i js used
    else if 0.7 < sim i j then
      let r := innerScan sim i js (insert j used)
      (j :: r.1, r.2)
    else innerScan sim i js used

/-- Outer loop of the greedy clustering: each not-yet-clustered index
opens a new cluster seeded by it. -/
noncomputable def outerScan (sim : ℕ → ℕ → ℝ) (n : ℕ) :
    List ℕ → Finset ℕ → List (List ℕ)
  | [], _ => []
  | i :: is, used =>
    if i ∈ used then outerScan sim n is used
    else
      let r := innerScan sim i ((List.range n).filter fun j => i < j) (insert i used)
      (i :: r.1) :: outerScan sim n is r.2

/-- Greedy single-pass clustering of sentence indices `0, …, n-1` in
original order, as in `calculate_sentence_semantic_entropy`. -/
noncomputable def greedyClusters (sim : ℕ → ℕ → ℝ) (n : ℕ) : List (List ℕ) :=
  outerScan sim n (List.range n) ∅

/-- Shannon entropy over the cluster-size distribution: for each
cluster of size `k` out of `total` sentences, `p = k/total` contributes
`-p·log2 p` (the source skips non-positive `p`). -/
noncomputable def entropyOfClusters (clusters : List (List ℕ)) (total : ℕ) : ℝ :=
  (clusters.map fun c =>
    let prob := (c.length : ℝ) / total
    if 0 < prob then -(prob * Real.logb 2 prob) else 0).sum

/-- Similarity of sentence indices `i` and `j` through the encoder, as
computed inside `calculate_sentence_semantic_entropy`. -/
noncomputable def entropySim (encode1 : String → List ℝ) (responses : List String) :
    ℕ → ℕ → ℝ := fun i j =>
  let embeddings := (extractEntropySentences responses).map encode1
  cosineSim (embeddings.getD i []) (embeddings.getD j [])

/-- Embedding of `calculate_sentence_semantic_entropy`: `0.0` when
fewer than two qualifying sentences exist, otherwise the Shannon
entropy of the greedy clustering of all sentences. -/
noncomputable def calculate_sentence_semantic_entropy (encode1 : String → List ℝ)
    (responses : List String) : ℝ :=
  let all_sentences := extractEntropySentences responses
  if all_sentences.length < 2 then 0
  else
    entropyOfClusters (greedyClusters (entropySim encode1 responses) all_sentences.length)
      all_sentences.length

/-! ### Query decomposer and multi-stage retrieval (`src/safety/multi_stage.py`) -/

/-- Prompt built by `break_down_query`. -/
def breakdownPrompt (complex_question : String) : String :=
  "You are a medical librarian. Break down this complex medical question into 2-4 simpler, specific questions that together would provide a complete answer.\n\nComplex question: " ++
    complex_question ++
    "\n\nProvide the simpler questions as a numbered list:\n1.\n2.\n3.\n4.\n"

/-- Character class of the marker-stripping regex `^[\d\-\.\)\s]+`. -/
def isMarkerChar (c : Char) : Bool :=
  c.isDigit || c = '-' || c = '.' || c = ')' || c.isWhitespace

/-- Parsing part of `break_down_query`: keep only stripped lines that
start with a digit or a dash, remove the leading marker, and keep the
result when nonempty. -/
def parseSubQuestions (responseText : String) : List String :=
  ((splitOnNl (strip responseText).data).filterMap fun l0 =>
    let line := stripChars l0
    match line with
    | [] => none
    | c :: _ =>
      if c.isDigit || c = '-' then
        let clean := stripChars (line.dropWhile isMarkerChar)
        if clean ≠ [] then some ((⟨clean⟩ : String)) else none
      else none)

/-- Embedding of `break_down_query`: prompt the language model
(`llmComplete`) and parse its output into sub-questions. -/
def break_down_query (llmComplete : String → String) (complex_question : String) :
    List String :=
  parseSubQuestions (llmComplete (breakdownPrompt complex_question))

/-- One retrieved source node (the fields that `safety_checker.py`
serialises: text, score, pmcid, title). -/
structure SourceNode where
  text : String
  score : ℚ
  pmcid : String
  title : String
deriving DecidableEq

/-- One entry of the `sub_answers` list of `multi_stage_retrieval`. -/
structure SubAnswer where
  question : String
  answer : String
  sources : List SourceNode
deriving DecidableEq

/-- Result record of `multi_stage_retrieval`. -/
structure MultiStageResult where
  original_question : String
  sub_questions : List String
  sub_answers : List SubAnswer
  final_answer : String
  all_sources : List SourceNode
deriving DecidableEq

/-- The source-collection step: append a node unless a node with the
same text was already collected. -/
def addUnique (acc : List SourceNode) (s : SourceNode) : List SourceNode :=
  if s.text ∈ acc.map SourceNode.text then acc else acc ++ [s]

/-- Context string built from the sub-answers (`Sub-question i+1: …`). -/
def buildContext : ℕ → List SubAnswer → String
  | _, [] => ""
  | i, sa :: rest =>
    "Sub-question " ++ toString (i + 1) ++ ": " ++ sa.question ++ "\nAnswer: " ++
      sa.answer ++ "\n\n" ++ buildContext (i + 1) rest

/-- Synthesis prompt of `multi_stage_retrieval`. -/
def synthesisPrompt (complex_question context : String) : String :=
  "Based on the following information, provide a comprehensive answer to the original question.\n\nOriginal question: " ++
    complex_question ++ "\n\nInformation gathered:\n" ++ context ++
    "\n\nInstructions:\n• Combine the information into one coherent answer\n• Only use the information provided above\n• If there are contradictions, mention them\n• Be specific and cite relevant details\n\nComprehensive answer:\n"

/-- Embedding of `multi_stage_retrieval`.  The retrieval engine is a
function from a question to a response text and its source nodes; the
language model is `llmComplete`. -/
def multi_stage_retrieval (llmComplete : String → String)
    (engine : String → String × List SourceNode) (complex_question : String) :
    MultiStageResult :=
  let sub_questions := break_down_query llmComplete complex_question
  let sub_answers := sub_questions.map fun sq => SubAnswer.mk sq (engine sq).1 (engine sq).2
  let all_sources := (sub_questions.flatMap fun sq => (engine sq).2).foldl addUnique []
  let context := buildContext 0 sub_answers
  let final_answer := llmComplete (synthesisPrompt complex_question context)
  ⟨complex_question, sub_questions, sub_answers, final_answer, all_sources⟩

/-- Answer-obtaining step (Step 1) of `comprehensive_safety_check`:
multi-stage mode runs the decomposer (its retrieval-engine calls are
exactly the sub-questions), single-stage mode issues one direct query.
`engine_calls` records the questions sent to the retrieval engine. -/
structure Step1Result where
  answer : String
  source_nodes : List SourceNode
  engine_calls : List String
deriving DecidableEq

/-- Step 1 of `comprehensive_safety_check` (lines 37-46). -/
def safetyCheckStep1 (llmComplete : String → String)
    (engine : String → String × List SourceNode) (question : String)
    (use_multi_stage : Bool) : Step1Result :=
  if use_multi_stage then
    let result := multi_stage_retrieval llmComplete engine question
    ⟨result.final_answer, result.all_sources, result.sub_questions⟩
  else
    ⟨(engine question).1, (engine question).2, [question]⟩

/-! ### External fact checker (`src/safety/fact_checker.py`,
`src/safety/external_sources.py`) -/

/-- Python truthiness of an optional error string: a missing key and an
empty string are falsy. -/
def errTruthy : Option String → Bool
  | none => false
  | some s => !(s = "")

/-- Sentence splitter `_split_into_sentences` of `external_sources.py`:
split on whitespace runs that follow `.`, `!` or `?` (the regex
`(?<=[.!?])\s+`), strip each piece and keep those of stripped length at
least `min_len`.  `prev` is the character preceding the current
position. -/
def splitAbsAux (prev : Char) : List Char → List (List Char)
  | [] => [[]]
  | c :: cs =>
    if isTerm prev && c.isWhitespace then
      [] :: splitAbsAux ' ' (cs.dropWhile Char.isWhitespace)
    else
      match splitAbsAux c cs with
      | [] => [[c]]
      | h :: t => (c :: h) :: t
termination_by l => l.length
decreasing_by
  · exact Nat.lt_succ_of_le (List.dropWhile_sublist _).length_le
  · exact Nat.lt_succ_of_le (Nat.le_refl _)

/-- Embedding of `_split_into_sentences`. -/
def splitIntoSentences (text : String) (min_len : ℕ) : List String :=
  (((splitAbsAux ' ' text.data).map stripChars).filter
      (fun l => min_len ≤ l.length)).map (fun l => (⟨l⟩ : String))

/-- Embedding of `prepare_abstract_sentences`: flatten the sentences of
all abstracts (minimum length 10). -/
def prepare_abstract_sentences (abstracts : List String) (min_len : ℕ) : List String :=
  abstracts.flatMap fun t => splitIntoSentences t min_len

/-- System prompt of `generate_scholar_keywords`. -/
def keywordsSystemPrompt : String :=
  "You are a clinical NLP assistant that extracts 3–6 concise keywords\nfrom an answer so they can be used as a Semantic Scholar search query.\n\nRules\n1. Output ONE line containing only the keywords separated by spaces.\n2. Use lower-case nouns; drop adjectives and stop-words.\n3. Include a keyword for:\n   • the main disease / problem\n   • the intervention / drug class (if present)\n   • the population or special setting (if present)\n4. Do NOT include numbers, punctuation, extra words, or explanations.\n5. If the answer covers multiple distinct topics, pick the MOST\n   central one (usually the first sentence).\n"

/-- User prompt of `generate_scholar_keywords`. -/
def keywordsUserPrompt (answer : String) : String :=
  "Extract keywords for Semantic Scholar from this answer:\n\n" ++ answer ++ "\n\nKeywords:\n"

/-- Embedding of `generate_scholar_keywords`: call the OpenAI
collaborator with the fixed prompts and strip its output. -/
def generate_scholar_keywords (callOpenai : String → String → String) (answer : String) :
    String :=
  strip (callOpenai keywordsSystemPrompt (keywordsUserPrompt answer))

/-- The dictionary returned by `external_fact_check`; keys absent on
some paths are `Option`s. -/
structure ExternalEvidence where
  external_support_score : ℝ
  sentence_scores : Option (List ℝ)
  num_external_sources : ℕ
  num_external_sentences : Option ℕ
  query_used : String
  error : Option String
  abstracts_sample : Option (List String)

/-- Embedding of `external_fact_check` (happy paths; the catch-all
exception handler is unreachable for pure collaborators).  `search`
models `search_semantic_scholar` and already degrades to `[]` on any
service failure. -/
noncomputable def external_fact_check (answer : String) (encode1 : String → List ℝ)
    (callOpenai : String → String → String) (search : String → ℕ → List String)
    (max_results : ℕ) : ExternalEvidence :=
  let query := generate_scholar_keywords callOpenai answer
  let abstracts := search query max_results
  if abstracts = [] then
    ⟨0, none, 0, none, query, some "No external sources found", none⟩
  else
    let external_sentences := prepare_abstract_sentences abstracts 10
    if external_sentences = [] then
      ⟨0, none, abstracts.length, none, query, some "No sentences extracted from abstracts", none⟩
    else
      let r := check_answer_support answer external_sentences encode1
      ⟨r.1, some r.2, abstracts.length, some external_sentences.length, query, none,
        some (abstracts.take 3)⟩

/-- Interpretation record of `interpret_external_score`. -/
structure ScoreInterp where
  score : ℝ
  interpretation : String
  confidence : String

/-- Embedding of `interpret_external_score`. -/
noncomputable def interpret_external_score (score : ℝ) : ScoreInterp :=
  if 0.7 ≤ score then
    ⟨score, "Strong external validation - answer aligns well with recent literature", "HIGH"⟩
  else if 0.5 ≤ score then
    ⟨score, "Moderate external validation - answer has some support in literature", "MEDIUM"⟩
  else if 0.3 ≤ score then
    ⟨score, "Weak external validation - limited support in recent literature", "LOW"⟩
  else
    ⟨score, "Poor external validation - answer not well-supported by recent literature",
      "VERY LOW"⟩

/-- Embedding of `_get_fact_check_recommendation`. -/
noncomputable def getFactCheckRecommendation (score : ℝ) (reliability : String) : String :=
  if reliability = "internal_only" then
    if 0.7 ≤ score then
      "Well-supported by internal sources, but external validation unavailable"
    else if 0.5 ≤ score then
      "Moderately supported by internal sources, consider seeking additional validation"
    else "Poorly supported by internal sources, high risk of inaccuracy"
  else
    if 0.7 ≤ score then "Well-validated by both internal and external sources"
    else if 0.5 ≤ score then "Moderately validated, exercise caution in clinical application"
    else "Poorly validated, do not use without consulting healthcare professional"

/-- Result record of `comprehensive_fact_check`. -/
structure FactCheckOut where
  internal_score : ℝ
  internal_interpretation : ScoreInterp
  external_score : ℝ
  external_interpretation : Option ScoreInterp
  external_details : ExternalEvidence
  combined_score : ℝ
  reliability : String
  recommendation : String

/-- Embedding of `comprehensive_fact_check`: internal attribution plus
external fact-check; on any external error the combined score falls
back to the internal score with reliability `internal_only`, otherwise
`0.7·internal + 0.3·external` with reliability `internal_and_external`. -/
noncomputable def comprehensive_fact_check (answer : String) (internal_sources : List String)
    (encode1 : String → List ℝ) (callOpenai : String → String → String)
    (search : String → ℕ → List String) (max_external_results : ℕ) : FactCheckOut :=
  let internal := check_answer_support answer internal_sources encode1
  let external_result := external_fact_check answer encode1 callOpenai search max_external_results
  let external_score := external_result.external_support_score
  let hasErr := errTruthy external_result.error
  let combined_score := if hasErr then internal.1 else 0.7 * internal.1 + 0.3 * external_score
  let reliability := if hasErr then "internal_only" else "internal_and_external"
  ⟨internal.1, interpret_external_score internal.1, external_score,
    if hasErr then none else some (interpret_external_score external_score),
    external_result, combined_score, reliability,
    getFactCheckRecommendation combined_score reliability⟩

/-! ### Safety aggregator (`src/safety/safety_checker.py`, lines 102-148) -/

/-- The `fact_check_result` dictionary as the aggregator sees it: either
the full `comprehensive_fact_check` result (no `error` key) or the
exception wrapper `{"error": str(e)}` (no `combined_score` key). -/
structure FactCheckDict where
  error : Option String
  combined_score : Option ℝ

/-- Aggregation part of `comprehensive_safety_check` (Step 7): count
passed stages, fix the maximum score, and classify the confidence by
the pass ratio.  `fact_check_result` is `none` exactly when no
fact-check was run.  Returns
`(safety_score, max_safety_score, confidence)`. -/
noncomputable def aggregateAssessment (attribution_score consistency_score : ℝ)
    (entropy_confidence : String) (enable_fact_check : Bool)
    (fact_check_result : Option FactCheckDict) : ℕ × ℕ × String :=
  let fcOk := enable_fact_check && fact_check_result.isSome &&
    !(errTruthy ((fact_check_result.map FactCheckDict.error).getD none))
  let max_score : ℕ := if fcOk then 4 else 3
  let external_score := ((fact_check_result.map FactCheckDict.combined_score).getD none).getD 0
  let safety_score : ℕ :=
    (if 0.6 ≤ attribution_score then 1 else 0) +
    (if 0.6 ≤ consistency_score then 1 else 0) +
    (if entropy_confidence = "HIGH" then 1 else 0) +
    (if fcOk ∧ 0.6 ≤ external_score then 1 else 0)
  let confidence_ratio : ℝ := (safety_score : ℝ) / (max_score : ℝ)
  let confidence :=
    if 0.75 ≤ confidence_ratio then "HIGH CONFIDENCE"
    else if 0.5 ≤ confidence_ratio then "MEDIUM CONFIDENCE"
    else "LOW CONFIDENCE"
  (safety_score, max_score, confidence)

/-! ### Lemmas: dot product and cosine similarity -/

lemma dotp_nil_left (v : List ℝ) : dotp [] v = 0 := rfl

lemma dotp_nil_right (u : List ℝ) : dotp u [] = 0 := by cases u <;> rfl

lemma dotp_cons (a b : ℝ) (u v : List ℝ) :
    dotp (a :: u) (b :: v) = a * b + dotp u v := by
  simp [dotp]

lemma dotp_comm (u v : List ℝ) : dotp u v = dotp v u := by
  induction u generalizing v with
  | nil => simp [dotp_nil_left, dotp_nil_right]
  | cons a u ih =>
    cases v with
    | nil => simp [dotp_nil_left, dotp_nil_right]
    | cons b v => rw [dotp_cons, dotp_cons, mul_comm, ih]

lemma dotp_self_nonneg (u : List ℝ) : 0 ≤ dotp u u := by
  induction u with
  | nil => exact le_of_eq rfl
  | cons a u ih => rw [dotp_cons]; exact add_nonneg (mul_self_nonneg a) ih

lemma dotp_eq_sum (u v : List ℝ) :
    dotp u v = ∑ i ∈ Finset.range (min u.length v.length), u.getD i 0 * v.getD i 0 := by
  induction u generalizing v with
  | nil => simp [dotp_nil_left]
  | cons a u ih =>
    cases v with
    | nil => simp [dotp_nil_right]
    | cons b v =>
      rw [dotp_cons, ih v]
      rw [List.length_cons, List.length_cons, Nat.succ_min_succ, Finset.sum_range_succ']
      simp [add_comm]

lemma abs_dotp_le (u v : List ℝ) :
    |dotp u v| ≤ Real.sqrt (dotp u u) * Real.sqrt (dotp v v) := by
  have hCS := Finset.sum_mul_sq_le_sq_mul_sq (Finset.range (min u.length v.length))
    (fun i => u.getD i 0) (fun i => v.getD i 0)
  have h1 : ∑ i ∈ Finset.range (min u.length v.length), u.getD i 0 ^ 2 ≤ dotp u u := by
    calc ∑ i ∈ Finset.range (min u.length v.length), u.getD i 0 ^ 2
        ≤ ∑ i ∈ Finset.range u.length, u.getD i 0 ^ 2 :=
          Finset.sum_le_sum_of_subset_of_nonneg
            (Finset.range_subset.2 (min_le_left _ _)) (fun i _ _ => sq_nonneg _)
      _ = dotp u u := by
          rw [dotp_eq_sum u u, min_self]
          exact Finset.sum_congr rfl fun i _ => by ring
  have h2 : ∑ i ∈ Finset.range (min u.length v.length), v.getD i 0 ^ 2 ≤ dotp v v := by
    calc ∑ i ∈ Finset.range (min u.length v.length), v.getD i 0 ^ 2
        ≤ ∑ i ∈ Finset.range v.length, v.getD i 0 ^ 2 :=
          Finset.sum_le_sum_of_subset_of_nonneg
            (Finset.range_subset.2 (min_le_right _ _)) (fun i _ _ => sq_nonneg _)
      _ = dotp v v := by
          rw [dotp_eq_sum v v, min_self]
          exact Finset.sum_congr rfl fun i _ => by ring
  have hsq : dotp u v ^ 2 ≤ dotp u u * dotp v v := by
    rw [dotp_eq_sum u v]
    refine hCS.trans (mul_le_mul h1 h2 (Finset.sum_nonneg fun i _ => sq_nonneg _) ?_)
    exact le_trans (Finset.sum_nonneg fun i _ => sq_nonneg _) h1
  calc |dotp u v| ≤ Real.sqrt (dotp u u * dotp v v) := Real.abs_le_sqrt hsq
    _ = Real.sqrt (dotp u u) * Real.sqrt (dotp v v) := Real.sqrt_mul (dotp_self_nonneg u) _

lemma cosineSim_bounds (u v : List ℝ) : -1 ≤ cosineSim u v ∧ cosineSim u v ≤ 1 := by
  unfold cosineSim
  rcases eq_or_ne (Real.sqrt (dotp u u) * Real.sqrt (dotp v v)) 0 with h | h
  · rw [h, div_zero]; norm_num
  · have hpos : 0 < Real.sqrt (dotp u u) * Real.sqrt (dotp v v) :=
      lt_of_le_of_ne (mul_nonneg (Real.sqrt_nonneg _) (Real.sqrt_nonneg _)) (Ne.symm h)
    have habs : |dotp u v / (Real.sqrt (dotp u u) * Real.sqrt (dotp v v))| ≤ 1 := by
      rw [abs_div, abs_of_pos hpos]
      exact (div_le_one hpos).2 (abs_dotp_le u v)
    exact abs_le.1 habs

lemma cosineSim_comm (u v : List ℝ) : cosineSim u v = cosineSim v u := by
  unfold cosineSim
  rw [dotp_comm u v, mul_comm]

/-! ### Lemmas: `np.max` and `np.mean` bounds -/

lemma foldl_max_le {b : ℝ} :
    ∀ (l : List ℝ) (a : ℝ), a ≤ b → (∀ x ∈ l, x ≤ b) → l.foldl max a ≤ b
  | [], _, ha, _ => ha
  | c :: t, a, ha, h =>
    foldl_max_le t (max a c) (max_le ha (h c (List.mem_cons_self _ _)))
      (fun x hx => h x (List.mem_cons_of_mem _ hx))

lemma le_foldl_max_init : ∀ (l : List ℝ) (a : ℝ), a ≤ l.foldl max a
  | [], _ => le_refl _
  | c :: t, a => le_trans (le_max_left a c) (le_foldl_max_init t (max a c))

lemma maxD_le {l : List ℝ} {b : ℝ} (hne : l ≠ []) (h : ∀ x ∈ l, x ≤ b) : maxD l ≤ b := by
  cases l with
  | nil => exact absurd rfl hne
  | cons a t =>
    exact foldl_max_le t a (h a (List.mem_cons_self _ _)) (fun x hx => h x (List.mem_cons_of_mem _ hx))

lemma le_maxD {l : List ℝ} {lo : ℝ} (hne : l ≠ []) (h : ∀ x ∈ l, lo ≤ x) : lo ≤ maxD l := by
  cases l with
  | nil => exact absurd rfl hne
  | cons a t => exact le_trans (h a (List.mem_cons_self _ _)) (le_foldl_max_init t a)

lemma list_sum_le_length_mul {b : ℝ} :
    ∀ l : List ℝ, (∀ x ∈ l, x ≤ b) → l.sum ≤ l.length * b
  | [], _ => by simp
  | a :: t, h => by
    rw [List.sum_cons, List.length_cons]
    have := list_sum_le_length_mul t (fun x hx => h x (List.mem_cons_of_mem _ hx))
    have ha := h a (List.mem_cons_self _ _)
    push_cast
    nlinarith

lemma length_mul_le_list_sum {lo : ℝ} :
    ∀ l : List ℝ, (∀ x ∈ l, lo ≤ x) → (l.length : ℝ) * lo ≤ l.sum
  | [], _ => by simp
  | a :: t, h => by
    rw [List.sum_cons, List.length_cons]
    have := length_mul_le_list_sum t (fun x hx => h x (List.mem_cons_of_mem _ hx))
    have ha := h a (List.mem_cons_self _ _)
    push_cast
    nlinarith

lemma mean_bounds {l : List ℝ} {lo hi : ℝ} (hne : l ≠ [])
    (hlo : ∀ x ∈ l, lo ≤ x) (hhi : ∀ x ∈ l, x ≤ hi) : lo ≤ mean l ∧ mean l ≤ hi := by
  have hn : (0 : ℝ) < l.length := by
    have := List.length_pos.2 hne
    exact_mod_cast this
  constructor
  · rw [mean, le_div_iff₀ hn]
    calc lo * l.length = (l.length : ℝ) * lo := by ring
      _ ≤ l.sum := length_mul_le_list_sum l hlo
  · rw [mean, div_le_iff₀ hn]
    calc l.sum ≤ (l.length : ℝ) * hi := list_sum_le_length_mul l hhi
      _ = hi * l.length := by ring

/-! ### Claim theorems: attribution scorer -/

/-- C4 (amended): for every answer, source list and encoder output the
overall attribution score of `check_answer_support` lies in the closed
interval `[-1, 1]` (the mean over sentences of the maximal cosine
similarity against the sources). -/
theorem attribution_score_bounds (answer : String) (source_chunks : List String)
    (encode1 : String → List ℝ) :
    -1 ≤ (check_answer_support answer source_chunks encode1).1 ∧
      (check_answer_support answer source_chunks encode1).1 ≤ 1 := by
  unfold check_answer_support
  by_cases hg : splitSentences answer = [] ∨ source_chunks = []
  · rw [if_pos hg]; norm_num
  · rw [if_neg hg]
    rw [not_or] at hg
    dsimp only
    have hsent : splitSentences answer ≠ [] := hg.1
    have hsrc : source_chunks ≠ [] := hg.2
    apply mean_bounds
    · simp only [ne_eq, List.map_eq_nil_iff]
      exact hsent
    · intro x hx
      simp only [List.map_map, List.mem_map] at hx
      obtain ⟨s, _, rfl⟩ := hx
      apply le_maxD
      · simp only [ne_eq, List.map_eq_nil_iff]
        exact hsrc
      · intro y hy
        obtain ⟨c, _, rfl⟩ := List.mem_map.1 hy
        exact (cosineSim_bounds _ _).1
    · intro x hx
      simp only [List.map_map, List.mem_map] at hx
      obtain ⟨s, _, rfl⟩ := hx
      apply maxD_le
      · simp only [ne_eq, List.map_eq_nil_iff]
        exact hsrc
      · intro y hy
        obtain ⟨c, _, rfl⟩ := List.mem_map.1 hy
        exact (cosineSim_bounds _ _).2

/-- C4 (counterexample): the claimed interval `[0, 1]` is wrong: with
the encoder output `[1]` for the answer sentence and `[-1]` for the
source chunk, the overall attribution score is `-1 < 0`. -/
theorem attribution_score_can_be_negative :
    ¬ (0 ≤ (check_answer_support "a." ["b"]
        (fun s => if s = "a" then [(1 : ℝ)] else [(-1 : ℝ)])).1) := by
  have hs : splitSentences "a." = ["a"] := by decide
  have key : (check_answer_support "a." ["b"]
      (fun s => if s = "a" then [(1 : ℝ)] else [(-1 : ℝ)])).1 = -1 := by
    have hb : ¬("b" = "a") := by decide
    unfold check_answer_support
    rw [hs]
    rw [if_neg (by simp)]
    simp only [List.map_cons, List.map_nil]
    norm_num [cosineSim, dotp, maxD, mean, Real.sqrt_one, hb]
  rw [key]
  norm_num

/-- C10: when the answer yields no sentences or the source list is
empty, `check_answer_support` returns exactly `(0.0, [])`. -/
theorem attribution_empty_input (answer : String) (source_chunks : List String)
    (encode1 : String → List ℝ)
    (h : splitSentences answer = [] ∨ source_chunks = []) :
    check_answer_support answer source_chunks encode1 = (0, []) := by
  unfold check_answer_support
  rw [if_pos h]

/-- Witness for C10 at the empty answer. -/
theorem attribution_empty_input_witness :
    (splitSentences "" = [] ∨ (["chunk"] : List String) = []) ∧
      check_answer_support "" ["chunk"] (fun _ => []) = (0, []) :=
  ⟨Or.inl (by decide), attribution_empty_input _ _ _ (Or.inl (by decide))⟩

/-- C5: the weak-sentence list is monotone in the threshold: whatever
is reported weak at `t1 ≤ t2` is also reported weak at `t2`. -/
theorem find_weak_sentences_monotone (answer : String) (source_chunks : List String)
    (encode1 : String → List ℝ) {t1 t2 : ℝ} (h : t1 ≤ t2) :
    ∀ w ∈ find_weak_sentences answer source_chunks encode1 t1,
      w ∈ find_weak_sentences answer source_chunks encode1 t2 := by
  intro w hw
  unfold find_weak_sentences at hw ⊢
  by_cases hg : splitSentences answer = [] ∨ source_chunks = []
  · rw [if_pos hg] at hw
    exact absurd hw (List.not_mem_nil w)
  · rw [if_neg hg] at hw ⊢
    dsimp only at hw ⊢
    rcases List.mem_filterMap.1 hw with ⟨p, hp, heq⟩
    refine List.mem_filterMap.2 ⟨p, hp, ?_⟩
    dsimp only at heq ⊢
    split_ifs at heq with hb
    rw [if_pos (lt_of_lt_of_le hb h)]
    exact heq

/-- Witness for C5: the sole sentence of the answer is weak at
threshold `1/2` (its best similarity is `0`), hence also at `1`. -/
theorem find_weak_sentences_monotone_witness :
    ((1 / 2 : ℝ) ≤ 1) ∧
      (⟨"a", 0, 0⟩ : WeakSentence) ∈ find_weak_sentences "a." ["b"]
        (fun s => if s = "a" then [(1 : ℝ), 0] else [0, 1]) 1 := by
  have hs : splitSentences "a." = ["a"] := by decide
  have hb : ¬("b" = "a") := by decide
  have hcos : cosineSim [(1 : ℝ), 0] [0, 1] = 0 := by
    simp [cosineSim, dotp]
  have hmem : (⟨"a", 0, 0⟩ : WeakSentence) ∈ find_weak_sentences "a." ["b"]
      (fun s => if s = "a" then [(1 : ℝ), 0] else [0, 1]) (1 / 2) := by
    unfold find_weak_sentences
    rw [hs, if_neg (by simp)]
    dsimp only
    refine List.mem_filterMap.2 ⟨(0, [(1 : ℝ), 0]), ?_, ?_⟩
    · simp [hb]
    · dsimp only
      simp only [List.map_cons, List.map_nil, hb]
      norm_num [maxD, hcos]
  exact ⟨by norm_num,
    find_weak_sentences_monotone "a." ["b"] _ (by norm_num) _ hmem⟩

/-! ### Lemmas: pairwise similarities of the consistency checker -/

lemma list_sum_map_add {α : Type} (g h : α → ℝ) :
    ∀ l : List α, (l.map fun x => g x + h x).sum = (l.map g).sum + (l.map h).sum
  | [] => by simp
  | a :: t => by
    simp only [List.map_cons, List.sum_cons, list_sum_map_add g h t]
    ring

lemma pairSims_length {α : Type} (f : α → α → ℝ) :
    ∀ l : List α, 2 * (pairSims f l).length = l.length * (l.length - 1)
  | [] => rfl
  | a :: rest => by
    have h2 := pairSims_length f rest
    simp only [pairSims, List.length_append, List.length_map, List.length_cons]
    cases hn : rest.length with
    | zero => rw [hn] at h2; omega
    | succ m =>
      rw [hn] at h2
      simp only [Nat.succ_sub_one]
      calc 2 * (m + 1 + (pairSims f rest).length)
          = 2 * (m + 1) + 2 * (pairSims f rest).length := by ring
        _ = 2 * (m + 1) + (m + 1) * m := by rw [h2]; simp
        _ = (m + 1 + 1) * (m + 1) := by ring

lemma pairSims_two_mul_sum {α : Type} (f : α → α → ℝ) (hf : ∀ x y, f x y = f y x) :
    ∀ l : List α, 2 * (pairSims f l).sum =
      (l.map fun x => (l.map (f x)).sum).sum - (l.map fun x => f x x).sum
  | [] => by simp [pairSims]
  | a :: rest => by
    have ih := pairSims_two_mul_sum f hf rest
    simp only [pairSims, List.sum_append, List.map_cons, List.sum_cons]
    rw [list_sum_map_add (fun x => f x a) (fun x => (rest.map (f x)).sum) rest]
    have hcol : (rest.map fun x => f x a) = rest.map (f a) :=
      List.map_congr_left fun x _ => hf x a
    rw [hcol]
    linarith

lemma totalSum_perm {α : Type} (f : α → α → ℝ) {l1 l2 : List α} (h : l1.Perm l2) :
    (l1.map fun x => (l1.map (f x)).sum).sum = (l2.map fun x => (l2.map (f x)).sum).sum := by
  have step1 : (l1.map fun x => (l1.map (f x)).sum) = l1.map fun x => (l2.map (f x)).sum :=
    List.map_congr_left fun x _ => (h.map (f x)).sum_eq
  rw [step1]
  exact (h.map _).sum_eq

/-! ### Claim theorem: consistency checker -/

/-- C6: `check_consistency` returns exactly `1.0` when fewer than two
responses are collected, and for two or more responses the score is
invariant under any permutation of the order in which the responses
were received. -/
theorem check_consistency_spec (engine : ℕ → String) (encode1 : String → List ℝ)
    (num_tries : ℕ) :
    (num_tries < 2 → (check_consistency engine encode1 num_tries).1 = 1) ∧
      ∀ l1 l2 : List String, l1.Perm l2 →
        consistencyScore encode1 l1 = consistencyScore encode1 l2 := by
  constructor
  · intro h
    unfold check_consistency consistencyScore
    dsimp only
    rw [if_pos (by simpa using h)]
  · intro l1 l2 hperm
    unfold consistencyScore
    have hlen : l1.length = l2.length := hperm.length_eq
    by_cases h2 : l1.length < 2
    · rw [if_pos h2, if_pos (hlen ▸ h2)]
    · rw [if_neg h2, if_neg (hlen ▸ h2)]
      have hm : (l1.map encode1).Perm (l2.map encode1) := hperm.map _
      unfold mean
      have hsum : (pairSims cosineSim (l1.map encode1)).sum =
          (pairSims cosineSim (l2.map encode1)).sum := by
        have e1 := pairSims_two_mul_sum cosineSim cosineSim_comm (l1.map encode1)
        have e2 := pairSims_two_mul_sum cosineSim cosineSim_comm (l2.map encode1)
        have t := totalSum_perm cosineSim hm
        have d : ((l1.map encode1).map fun x => cosineSim x x).sum =
            ((l2.map encode1).map fun x => cosineSim x x).sum := (hm.map _).sum_eq
        linarith
      have hplen : (pairSims cosineSim (l1.map encode1)).length =
          (pairSims cosineSim (l2.map encode1)).length := by
        have a1 := pairSims_length cosineSim (l1.map encode1)
        have a2 := pairSims_length cosineSim (l2.map encode1)
        have hml : (l1.map encode1).length = (l2.map encode1).length := by
          simp [hlen]
        rw [hml] at a1
        omega
      rw [hsum, hplen]

/-- Witness for C6: one response gives score `1.0`; swapping the two
responses of a two-response run leaves the score unchanged. -/
theorem check_consistency_spec_witness :
    ((1 : ℕ) < 2 ∧ (check_consistency (fun _ => "r") (fun _ => []) 1).1 = 1) ∧
      ((["a", "b"] : List String).Perm ["b", "a"] ∧
        consistencyScore (fun _ => []) ["a", "b"] =
          consistencyScore (fun _ => []) ["b", "a"]) :=
  ⟨⟨by norm_num, (check_consistency_spec (fun _ => "r") (fun _ => []) 1).1 (by norm_num)⟩,
    ⟨List.Perm.swap "b" "a" [],
      (check_consistency_spec (fun _ => "r") (fun _ => []) 1).2 _ _
        (List.Perm.swap "b" "a" [])⟩⟩

/-! ### Claim theorems: entropy sampling loop (shared-handle temperature) -/

/-- C2 (counterexample): the elevated temperature is not passed as a
per-call parameter — the sampling loop stores it on the shared handle:
with initial handle temperature `0.1` and override `0.8`, the handle
state observed by the query is not the initial state. -/
theorem entropy_loop_mutates_handle :
    ¬ ∀ s ∈ (entropySampleLoop (fun _ => "response") (4 / 5) 1 (some (1 / 10))).2.2,
        s = some (1 / 10 : ℚ) := by
  intro hall
  have h8 := hall (some (4 / 5)) (by simp [entropySampleLoop])
  norm_num at h8

/-- C2 (amended): the sampling loop mutates the shared handle, setting
its temperature to the elevated value for the duration of each query
(every query observes the override when the handle has the attribute)
and restoring the original value afterwards, so the final handle state
equals the initial one. -/
theorem entropy_loop_mutate_restore (query : Option ℚ → String) (temperature : ℚ)
    (n : ℕ) (st : Option ℚ) :
    (entropySampleLoop query temperature n st).2.1 = st ∧
      (entropySampleLoop query temperature n st).2.2 =
        List.replicate n (if st.isSome then some temperature else st) := by
  induction n generalizing st with
  | zero => exact ⟨rfl, rfl⟩
  | succ k ih =>
    cases st with
    | none => simpa [entropySampleLoop, List.replicate_succ] using ih none
    | some t => simpa [entropySampleLoop, List.replicate_succ] using ih (some t)

/-! ### Lemmas: greedy clustering of the entropy estimator -/

lemma innerScan_snd (sim : ℕ → ℕ → ℝ) (i : ℕ) (js : List ℕ) :
    ∀ used : Finset ℕ,
      (innerScan sim i js used).2 = used ∪ (innerScan sim i js used).1.toFinset := by
  induction js with
  | nil => intro used; simp [innerScan]
  | cons j js ih =>
    intro used
    simp only [innerScan]
    split_ifs with h1 h2
    · exact ih used
    · dsimp only
      rw [ih (insert j used)]
      ext x
      simp only [Finset.mem_union, Finset.mem_insert, List.toFinset_cons, List.mem_toFinset]
      tauto
    · exact ih used

lemma innerScan_mem (sim : ℕ → ℕ → ℝ) (i : ℕ) {js : List ℕ} (hnd : js.Nodup) :
    ∀ (used : Finset ℕ) (m : ℕ),
      m ∈ (innerScan sim i js used).1 ↔ m ∈ js ∧ m ∉ used ∧ 0.7 < sim i m := by
  induction js with
  | nil => intro used m; simp [innerScan]
  | cons j js ih =>
    obtain ⟨hj, hnd'⟩ := List.nodup_cons.1 hnd
    intro used m
    simp only [innerScan]
    split_ifs with h1 h2
    · rw [ih hnd' used m]
      constructor
      · rintro ⟨hm, hu, hs⟩
        exact ⟨List.mem_cons_of_mem _ hm, hu, hs⟩
      · rintro ⟨hm, hu, hs⟩
        rcases List.mem_cons.1 hm with rfl | hm
        · exact absurd h1 hu
        · exact ⟨hm, hu, hs⟩
    · dsimp only
      rw [List.mem_cons, ih hnd' (insert j used) m]
      constructor
      · rintro (rfl | ⟨hm, hu, hs⟩)
        · exact ⟨List.mem_cons_self _ _, h1, h2⟩
        · exact ⟨List.mem_cons_of_mem _ hm,
            fun hx => hu (Finset.mem_insert_of_mem hx), hs⟩
      · rintro ⟨hm, hu, hs⟩
        rcases List.mem_cons.1 hm with rfl | hm2
        · exact Or.inl rfl
        · refine Or.inr ⟨hm2, ?_, hs⟩
          intro hx
          rcases Finset.mem_insert.1 hx with rfl | hx2
          · exact hj hm2
          · exact hu hx2
    · rw [ih hnd' used m]
      constructor
      · rintro ⟨hm, hu, hs⟩
        exact ⟨List.mem_cons_of_mem _ hm, hu, hs⟩
      · rintro ⟨hm, hu, hs⟩
        rcases List.mem_cons.1 hm with rfl | hm
        · exact absurd hs h2
        · exact ⟨hm, hu, hs⟩

lemma innerScan_nodup (sim : ℕ → ℕ → ℝ) (i : ℕ) {js : List ℕ} (hnd : js.Nodup) :
    ∀ used : Finset ℕ, (innerScan sim i js used).1.Nodup := by
  induction js with
  | nil => intro used; simp [innerScan]
  | cons j js ih =>
    obtain ⟨hj, hnd'⟩ := List.nodup_cons.1 hnd
    intro used
    simp only [innerScan]
    split_ifs with h1 h2
    · exact ih hnd' used
    · dsimp only
      refine List.nodup_cons.2 ⟨?_, ih hnd' (insert j used)⟩
      intro hmem
      exact ((innerScan_mem sim i hnd' (insert j used) j).1 hmem).2.1
        (Finset.mem_insert_self _ _)
    · exact ih hnd' used

lemma outerScan_flatten_mem (sim : ℕ → ℕ → ℝ) (n : ℕ) :
    ∀ (cur : List ℕ) (used : Finset ℕ), cur.Nodup → (∀ x ∈ cur, x < n) →
      (∀ x, x < n → x ∉ used → x ∈ cur) →
      ∀ m, m ∈ (outerScan sim n cur used).flatten ↔ m ∈ cur ∧ m ∉ used := by
  intro cur
  induction cur with
  | nil => intro used _ _ _ m; simp [outerScan]
  | cons i is ih =>
    intro used hnd hlt hcov m
    obtain ⟨hi_not, hnd'⟩ := List.nodup_cons.1 hnd
    simp only [outerScan]
    split_ifs with h1
    · have hcov' : ∀ x, x < n → x ∉ used → x ∈ is := by
        intro x hx hxu
        rcases List.mem_cons.1 (hcov x hx hxu) with rfl | hmem
        · exact absurd h1 hxu
        · exact hmem
      rw [ih used hnd' (fun x hx => hlt x (List.mem_cons_of_mem _ hx)) hcov' m]
      constructor
      · rintro ⟨hm, hu⟩
        exact ⟨List.mem_cons_of_mem _ hm, hu⟩
      · rintro ⟨hm, hu⟩
        rcases List.mem_cons.1 hm with rfl | hm
        · exact absurd h1 hu
        · exact ⟨hm, hu⟩
    · have hjsnd : ((List.range n).filter fun j => i < j).Nodup :=
        (List.nodup_range n).filter _
      have hcmem := innerScan_mem sim i hjsnd (insert i used)
      have hsnd := innerScan_snd sim i ((List.range n).filter fun j => i < j) (insert i used)
      have hcov' : ∀ x, x < n →
          x ∉ (innerScan sim i ((List.range n).filter fun j => i < j) (insert i used)).2 →
          x ∈ is := by
        intro x hx hxu
        rw [hsnd] at hxu
        simp only [Finset.mem_union, Finset.mem_insert, List.mem_toFinset, not_or] at hxu
        obtain ⟨⟨hxi, hxused⟩, _⟩ := hxu
        rcases List.mem_cons.1 (hcov x hx hxused) with rfl | hmem
        · exact absurd rfl hxi
        · exact hmem
      rw [List.flatten_cons, List.mem_append, List.mem_cons,
        ih _ hnd' (fun x hx => hlt x (List.mem_cons_of_mem _ hx)) hcov' m]
      constructor
      · rintro ((rfl | hmc) | ⟨hmis, hmu⟩)
        · exact ⟨List.mem_cons_self _ _, h1⟩
        · obtain ⟨hmjs, hmins, _⟩ := (hcmem m).1 hmc
          have hmn : m < n := List.mem_range.1 (List.mem_filter.1 hmjs).1
          have hmused : m ∉ used := fun hx => hmins (Finset.mem_insert_of_mem hx)
          exact ⟨hcov m hmn hmused, hmused⟩
        · rw [hsnd] at hmu
          simp only [Finset.mem_union, Finset.mem_insert, List.mem_toFinset, not_or] at hmu
          exact ⟨List.mem_cons_of_mem _ hmis, hmu.1.2⟩
      · rintro ⟨hm, hu⟩
        rcases List.mem_cons.1 hm with rfl | hmis
        · exact Or.inl (Or.inl rfl)
        · by_cases hmu :
            m ∈ (innerScan sim i ((List.range n).filter fun j => i < j) (insert i used)).2
          · rw [hsnd] at hmu
            rcases Finset.mem_union.1 hmu with hmi | hmc
            · rcases Finset.mem_insert.1 hmi with rfl | hmused
              · exact absurd hmis hi_not
              · exact absurd hmused hu
            · exact Or.inl (Or.inr (List.mem_toFinset.1 hmc))
          · exact Or.inr ⟨hmis, hmu⟩

lemma outerScan_flatten_nodup (sim : ℕ → ℕ → ℝ) (n : ℕ) :
    ∀ (cur : List ℕ) (used : Finset ℕ), cur.Nodup → (∀ x ∈ cur, x < n) →
      (∀ x, x < n → x ∉ used → x ∈ cur) →
      (outerScan sim n cur used).flatten.Nodup := by
  intro cur
  induction cur with
  | nil => intro used _ _ _; simp [outerScan]
  | cons i is ih =>
    intro used hnd hlt hcov
    obtain ⟨hi_not, hnd'⟩ := List.nodup_cons.1 hnd
    simp only [outerScan]
    split_ifs with h1
    · have hcov' : ∀ x, x < n → x ∉ used → x ∈ is := by
        intro x hx hxu
        rcases List.mem_cons.1 (hcov x hx hxu) with rfl | hmem
        · exact absurd h1 hxu
        · exact hmem
      exact ih used hnd' (fun x hx => hlt x (List.mem_cons_of_mem _ hx)) hcov'
    · have hjsnd : ((List.range n).filter fun j => i < j).Nodup :=
        (List.nodup_range n).filter _
      have hcmem := innerScan_mem sim i hjsnd (insert i used)
      have hsnd := innerScan_snd sim i ((List.range n).filter fun j => i < j) (insert i used)
      have hcov' : ∀ x, x < n →
          x ∉ (innerScan sim i ((List.range n).filter fun j => i < j) (insert i used)).2 →
          x ∈ is := by
        intro x hx hxu
        rw [hsnd] at hxu
        simp only [Finset.mem_union, Finset.mem_insert, List.mem_toFinset, not_or] at hxu
        obtain ⟨⟨hxi, hxused⟩, _⟩ := hxu
        rcases List.mem_cons.1 (hcov x hx hxused) with rfl | hmem
        · exact absurd rfl hxi
        · exact hmem
      rw [List.flatten_cons, List.nodup_append]
      refine ⟨?_, ih _ hnd' (fun x hx => hlt x (List.mem_cons_of_mem _ hx)) hcov', ?_⟩
      · refine List.nodup_cons.2 ⟨?_, innerScan_nodup sim i hjsnd (insert i used)⟩
        intro hmem
        exact ((hcmem i).1 hmem).2.1 (Finset.mem_insert_self _ _)
      · intro x hx hx2
        have hx2spec := (outerScan_flatten_mem sim n is _ hnd'
          (fun y hy => hlt y (List.mem_cons_of_mem _ hy)) hcov' x).1 hx2
        apply hx2spec.2
        rw [hsnd]
        rcases List.mem_cons.1 hx with rfl | hxc
        · exact Finset.mem_union_left _ (Finset.mem_insert_self _ _)
        · exact Finset.mem_union_right _ (List.mem_toFinset.2 hxc)

lemma greedyClusters_flatten_perm (sim : ℕ → ℕ → ℝ) (n : ℕ) :
    ((greedyClusters sim n).flatten).Perm (List.range n) := by
  have hmem := outerScan_flatten_mem sim n (List.range n) ∅ (List.nodup_range n)
    (fun x hx => List.mem_range.1 hx) (fun x hx _ => List.mem_range.2 hx)
  have hnd := outerScan_flatten_nodup sim n (List.range n) ∅ (List.nodup_range n)
    (fun x hx => List.mem_range.1 hx) (fun x hx _ => List.mem_range.2 hx)
  unfold greedyClusters
  refine (List.perm_ext_iff_of_nodup hnd (List.nodup_range n)).2 fun m => ?_
  rw [hmem m]
  simp

lemma countP_of_count_flatten_one :
    ∀ (L : List (List ℕ)) (m : ℕ), L.flatten.count m = 1 →
      L.countP (fun c => decide (m ∈ c)) = 1
  | [], m, h => by simp at h
  | c :: L, m, h => by
    rw [List.flatten_cons, List.count_append] at h
    rw [List.countP_cons]
    by_cases hc : m ∈ c
    · have hc1 : 0 < c.count m := List.count_pos_iff.2 hc
      have hLc : L.flatten.count m = 0 := by omega
      have hL0 : L.countP (fun c => decide (m ∈ c)) = 0 := by
        rw [List.countP_eq_zero]
        intro d hd
        simp only [decide_eq_true_eq]
        intro hmd
        exact (List.count_eq_zero.1 hLc) (List.mem_flatten.2 ⟨d, hd, hmd⟩)
      simp [hc, hL0]
    · have hc0 : c.count m = 0 := List.count_eq_zero.2 hc
      have := countP_of_count_flatten_one L m (by omega)
      simp [hc, this]

lemma innerScan_no_attach (sim : ℕ → ℕ → ℝ) (i : ℕ) :
    ∀ (js : List ℕ) (used : Finset ℕ), (∀ j ∈ js, ¬ 0.7 < sim i j) →
      innerScan sim i js used = ([], used)
  | [], used, _ => by simp [innerScan]
  | j :: js, used, h => by
    simp only [innerScan]
    split_ifs with h1 h2
    · exact innerScan_no_attach sim i js used fun x hx => h x (List.mem_cons_of_mem _ hx)
    · exact absurd h2 (h j (List.mem_cons_self _ _))
    · exact innerScan_no_attach sim i js used fun x hx => h x (List.mem_cons_of_mem _ hx)

lemma outerScan_singletons (sim : ℕ → ℕ → ℝ) (n : ℕ)
    (hd : ∀ i j, i < n → j < n → i ≠ j → ¬ 0.7 < sim i j) :
    ∀ (cur : List ℕ) (used : Finset ℕ), cur.Nodup → (∀ x ∈ cur, x < n) →
      outerScan sim n cur used = ((cur.filter fun m => m ∉ used).map fun m => [m])
  | [], used, _, _ => by simp [outerScan]
  | i :: is, used, hnd, hlt => by
    obtain ⟨hi, hnd'⟩ := List.nodup_cons.1 hnd
    simp only [outerScan]
    split_ifs with h1
    · rw [outerScan_singletons sim n hd is used hnd'
        fun x hx => hlt x (List.mem_cons_of_mem _ hx)]
      rw [List.filter_cons]
      simp [h1]
    · have hin : innerScan sim i ((List.range n).filter fun j => i < j) (insert i used) =
          ([], insert i used) := by
        apply innerScan_no_attach
        intro j hj
        have h2 := List.mem_filter.1 hj
        have hjn : j < n := List.mem_range.1 h2.1
        have hij : i < j := by simpa using h2.2
        exact hd i j (hlt i (List.mem_cons_self _ _)) hjn (Nat.ne_of_lt hij)
      rw [hin]
      dsimp only
      rw [outerScan_singletons sim n hd is (insert i used) hnd'
        fun x hx => hlt x (List.mem_cons_of_mem _ hx)]
      rw [List.filter_cons]
      have hfc : (is.filter fun m => m ∉ insert i used) = is.filter fun m => m ∉ used := by
        refine List.filter_congr fun x hx => ?_
        have hxi : x ≠ i := fun hxe => hi (hxe ▸ hx)
        simp [Finset.mem_insert, hxi]
      rw [hfc, if_pos (by simp [h1] : decide (i ∉ used) = true), List.map_cons]

/-! ### Claim theorem: clustering partitions the index set -/

/-- C8: the greedy single-pass clustering always partitions the
sentence index set: the concatenation of the clusters is a permutation
of `range n`, and every index below `n` belongs to exactly one
cluster. -/
theorem greedy_clusters_partition (sim : ℕ → ℕ → ℝ) (n : ℕ) :
    ((greedyClusters sim n).flatten).Perm (List.range n) ∧
      ∀ m, m < n → (greedyClusters sim n).countP (fun c => decide (m ∈ c)) = 1 := by
  have hperm := greedyClusters_flatten_perm sim n
  refine ⟨hperm, fun m hm => ?_⟩
  apply countP_of_count_flatten_one
  rw [hperm.count_eq]
  exact List.count_eq_one_of_mem (List.nodup_range n) (List.mem_range.2 hm)

/-- Witness for C8 at a concrete similarity function and `n = 2`. -/
theorem greedy_clusters_partition_witness :
    ((greedyClusters (fun _ _ => (0 : ℝ)) 2).flatten).Perm (List.range 2) ∧
      ((1 : ℕ) < 2 ∧
        (greedyClusters (fun _ _ => (0 : ℝ)) 2).countP (fun c => decide (1 ∈ c)) = 1) :=
  ⟨(greedy_clusters_partition (fun _ _ => (0 : ℝ)) 2).1,
    ⟨by decide, (greedy_clusters_partition (fun _ _ => (0 : ℝ)) 2).2 1 (by decide)⟩⟩

/-! ### Claim theorem: extreme values of the semantic entropy -/

/-- C7: the semantic entropy is exactly `0.0` when fewer than two
qualifying sentences exist or when all sentences fall into a single
cluster, and exactly `log2 n` when every pair of distinct sentences has
similarity at most `0.7` so each of the `n` sentences forms its own
cluster. -/
theorem semantic_entropy_extremes (encode1 : String → List ℝ) (responses : List String) :
    ((extractEntropySentences responses).length < 2 →
        calculate_sentence_semantic_entropy encode1 responses = 0) ∧
      ((greedyClusters (entropySim encode1 responses)
            (extractEntropySentences responses).length).length = 1 →
        calculate_sentence_semantic_entropy encode1 responses = 0) ∧
      ((∀ i j, i < (extractEntropySentences responses).length →
            j < (extractEntropySentences responses).length → i ≠ j →
            entropySim encode1 responses i j ≤ 0.7) →
        calculate_sentence_semantic_entropy encode1 responses =
          Real.logb 2 ((extractEntropySentences responses).length : ℝ)) := by
  refine ⟨?_, ?_, ?_⟩
  · intro h
    simp only [calculate_sentence_semantic_entropy]
    rw [if_pos h]
  · intro h1
    simp only [calculate_sentence_semantic_entropy]
    by_cases hT : (extractEntropySentences responses).length < 2
    · rw [if_pos hT]
    · rw [if_neg hT]
      obtain ⟨c, hc⟩ := List.length_eq_one.1 h1
      have hlen : c.length = (extractEntropySentences responses).length := by
        have hp := greedyClusters_flatten_perm (entropySim encode1 responses)
          (extractEntropySentences responses).length
        rw [hc] at hp
        simpa using hp.length_eq
      rw [hc]
      simp only [entropyOfClusters, List.map_cons, List.map_nil, List.sum_cons, List.sum_nil]
      have hT0 : ((extractEntropySentences responses).length : ℝ) ≠ 0 :=
        Nat.cast_ne_zero.2 (by omega)
      rw [hlen, div_self hT0]
      norm_num [Real.logb_one]
  · intro hdis
    simp only [calculate_sentence_semantic_entropy]
    by_cases hT : (extractEntropySentences responses).length < 2
    · rw [if_pos hT]
      have h01 : (extractEntropySentences responses).length = 0 ∨
          (extractEntropySentences responses).length = 1 := by omega
      rcases h01 with h0 | h0 <;> rw [h0] <;>
        norm_num [Real.logb_zero, Real.logb_one]
    · rw [if_neg hT]
      have hcl : greedyClusters (entropySim encode1 responses)
          (extractEntropySentences responses).length =
          (List.range (extractEntropySentences responses).length).map fun m => [m] := by
        unfold greedyClusters
        rw [outerScan_singletons (entropySim encode1 responses)
          (extractEntropySentences responses).length
          (fun i j hi hj hne => not_lt.2 (hdis i j hi hj hne))
          (List.range (extractEntropySentences responses).length) ∅
          (List.nodup_range _) (fun x hx => List.mem_range.1 hx)]
        congr 1
        simp
      rw [hcl]
      have hTpos : (0 : ℝ) < ((extractEntropySentences responses).length : ℝ) := by
        exact_mod_cast (by omega : 0 < (extractEntropySentences responses).length)
      have hprob : (0 : ℝ) < 1 / ((extractEntropySentences responses).length : ℝ) := by
        positivity
      have hvals : (((List.range (extractEntropySentences responses).length).map
            fun m => [m]).map fun c : List ℕ =>
            (fun prob : ℝ => if 0 < prob then -(prob * Real.logb 2 prob) else 0)
              ((c.length : ℝ) / ((extractEntropySentences responses).length : ℝ))) =
          List.replicate (extractEntropySentences responses).length
            (-(1 / ((extractEntropySentences responses).length : ℝ) *
              Real.logb 2 (1 / ((extractEntropySentences responses).length : ℝ)))) := by
        rw [List.map_map]
        refine List.eq_replicate_iff.2 ⟨by simp, fun b hb => ?_⟩
        obtain ⟨m, _, rfl⟩ := List.mem_map.1 hb
        simp only [Function.comp_apply, List.length_cons, List.length_nil, Nat.zero_add,
          Nat.cast_one]
        rw [if_pos hprob]
      simp only [entropyOfClusters]
      rw [hvals, List.sum_replicate, nsmul_eq_mul]
      have hinv : Real.logb 2 (1 / ((extractEntropySentences responses).length : ℝ)) =
          -Real.logb 2 ((extractEntropySentences responses).length : ℝ) := by
        rw [one_div, Real.logb_inv]
      rw [hinv]
      field_simp

/-- Witness for C7: a response with no qualifying sentence gives
entropy `0`; two identical sentences (constant encoder) form a single
cluster with entropy `0`; two orthogonally-encoded sentences are
mutually dissimilar and give entropy `log2 2`. -/
theorem semantic_entropy_extremes_witness :
    ((extractEntropySentences ["Hi."]).length < 2 ∧
        calculate_sentence_semantic_entropy (fun _ => [(1 : ℝ)]) ["Hi."] = 0) ∧
      ((greedyClusters
            (entropySim (fun _ => [(1 : ℝ)])
              ["This is sentence one. This is sentence one."])
            (extractEntropySentences
              ["This is sentence one. This is sentence one."]).length).length = 1 ∧
        calculate_sentence_semantic_entropy (fun _ => [(1 : ℝ)])
          ["This is sentence one. This is sentence one."] = 0) ∧
      ((∀ i j, i < (extractEntropySentences ["aaaaaaaaaa. bbbbbbbbbb."]).length →
          j < (extractEntropySentences ["aaaaaaaaaa. bbbbbbbbbb."]).length → i ≠ j →
          entropySim (fun s => if s = "aaaaaaaaaa" then [(1 : ℝ), 0] else [0, 1])
            ["aaaaaaaaaa. bbbbbbbbbb."] i j ≤ 0.7) ∧
        calculate_sentence_semantic_entropy
          (fun s => if s = "aaaaaaaaaa" then [(1 : ℝ), 0] else [0, 1])
          ["aaaaaaaaaa. bbbbbbbbbb."] = Real.logb 2 2) := by
  refine ⟨⟨by decide, (semantic_entropy_extremes _ _).1 (by decide)⟩, ?_, ?_⟩
  · have hT2 : (extractEntropySentences
        ["This is sentence one. This is sentence one."]).length = 2 := by decide
    have hext2 : extractEntropySentences ["This is sentence one. This is sentence one."] =
        ["This is sentence one", "This is sentence one"] := by decide
    have hsim01 : entropySim (fun _ => [(1 : ℝ)])
        ["This is sentence one. This is sentence one."] 0 1 = 1 := by
      simp only [entropySim]
      rw [hext2]
      norm_num [cosineSim, dotp, Real.sqrt_one, List.getD_cons_zero, List.getD_cons_succ]
    have h07 : (0.7 : ℝ) < entropySim (fun _ => [(1 : ℝ)])
        ["This is sentence one. This is sentence one."] 0 1 := by
      rw [hsim01]; norm_num
    have hfilter : (List.range 2).filter (fun j => 0 < j) = [1] := by decide
    have hrange2 : List.range 2 = [0, 1] := by decide
    have hcl : greedyClusters (entropySim (fun _ => [(1 : ℝ)])
        ["This is sentence one. This is sentence one."]) 2 = [[0, 1]] := by
      unfold greedyClusters
      rw [hrange2]
      simp [outerScan, innerScan, hfilter, h07]
    have hhyp : (greedyClusters
        (entropySim (fun _ => [(1 : ℝ)]) ["This is sentence one. This is sentence one."])
        (extractEntropySentences
          ["This is sentence one. This is sentence one."]).length).length = 1 := by
      rw [hT2, hcl]
      rfl
    exact ⟨hhyp, (semantic_entropy_extremes _ _).2.1 hhyp⟩
  · have hext3 : extractEntropySentences ["aaaaaaaaaa. bbbbbbbbbb."] =
        ["aaaaaaaaaa", "bbbbbbbbbb"] := by decide
    have hT3 : (extractEntropySentences ["aaaaaaaaaa. bbbbbbbbbb."]).length = 2 := by decide
    have hb : ¬("bbbbbbbbbb" = "aaaaaaaaaa") := by decide
    have hs0 : entropySim (fun s => if s = "aaaaaaaaaa" then [(1 : ℝ), 0] else [0, 1])
        ["aaaaaaaaaa. bbbbbbbbbb."] 0 1 = 0 := by
      simp only [entropySim]
      rw [hext3]
      norm_num [cosineSim, dotp, List.getD_cons_zero, List.getD_cons_succ, hb]
    have hs1 : entropySim (fun s => if s = "aaaaaaaaaa" then [(1 : ℝ), 0] else [0, 1])
        ["aaaaaaaaaa. bbbbbbbbbb."] 1 0 = 0 := by
      simp only [entropySim]
      rw [hext3]
      norm_num [cosineSim, dotp, List.getD_cons_zero, List.getD_cons_succ, hb]
    have hhyp : ∀ i j, i < (extractEntropySentences ["aaaaaaaaaa. bbbbbbbbbb."]).length →
        j < (extractEntropySentences ["aaaaaaaaaa. bbbbbbbbbb."]).length → i ≠ j →
        entropySim (fun s => if s = "aaaaaaaaaa" then [(1 : ℝ), 0] else [0, 1])
          ["aaaaaaaaaa. bbbbbbbbbb."] i j ≤ 0.7 := by
      rw [hT3]
      intro i j hi hj hne
      interval_cases i <;> interval_cases j <;>
        first
          | exact absurd rfl hne
          | (rw [hs0]; norm_num)
          | (rw [hs1]; norm_num)
    have hconc := (semantic_entropy_extremes
      (fun s => if s = "aaaaaaaaaa" then [(1 : ℝ), 0] else [0, 1])
      ["aaaaaaaaaa. bbbbbbbbbb."]).2.2 hhyp
    rw [hT3] at hconc
    exact ⟨hhyp, by
      rw [hconc]
      norm_num⟩

/-! ### Claim theorems: external fact checker -/

/-- C9: when the external literature search returns zero results, the
external fact-check yields support score `0.0` with the explicit error
tag `No external sources found` (a returned value, not an exception),
and the comprehensive combination sets `combined_score` exactly to the
internal score with reliability `internal_only`. -/
theorem external_zero_results_spec (answer : String) (internal_sources : List String)
    (encode1 : String → List ℝ) (callOpenai : String → String → String)
    (search : String → ℕ → List String) (max_results : ℕ)
    (h : search (generate_scholar_keywords callOpenai answer) max_results = []) :
    (external_fact_check answer encode1 callOpenai search max_results).external_support_score
        = 0 ∧
      (external_fact_check answer encode1 callOpenai search max_results).error =
        some "No external sources found" ∧
      (comprehensive_fact_check answer internal_sources encode1 callOpenai search
          max_results).combined_score =
        (check_answer_support answer internal_sources encode1).1 ∧
      (comprehensive_fact_check answer internal_sources encode1 callOpenai search
          max_results).reliability = "internal_only" := by
  have hext : external_fact_check answer encode1 callOpenai search max_results =
      ⟨0, none, 0, none, generate_scholar_keywords callOpenai answer,
        some "No external sources found", none⟩ := by
    simp only [external_fact_check]
    rw [h]
    simp
  have herr : errTruthy (some "No external sources found") = true := by decide
  refine ⟨by rw [hext], by rw [hext], ?_, ?_⟩
  · simp only [comprehensive_fact_check]
    rw [hext]
    simp [herr]
  · simp only [comprehensive_fact_check]
    rw [hext]
    simp [herr]

/-- Witness for C9 with a search collaborator that returns no results. -/
theorem external_zero_results_spec_witness :
    ((fun _ _ => ([] : List String))
        (generate_scholar_keywords (fun _ _ => "kw") "a.") 10 = []) ∧
      (comprehensive_fact_check "a." ["a."] (fun _ => [(1 : ℝ)]) (fun _ _ => "kw")
          (fun _ _ => []) 10).combined_score =
        (check_answer_support "a." ["a."] (fun _ => [(1 : ℝ)])).1 ∧
      (comprehensive_fact_check "a." ["a."] (fun _ => [(1 : ℝ)]) (fun _ _ => "kw")
          (fun _ _ => []) 10).reliability = "internal_only" :=
  ⟨rfl,
    (external_zero_results_spec "a." ["a."] (fun _ => [(1 : ℝ)]) (fun _ _ => "kw")
      (fun _ _ => []) 10 rfl).2.2.1,
    (external_zero_results_spec "a." ["a."] (fun _ => [(1 : ℝ)]) (fun _ _ => "kw")
      (fun _ _ => []) 10 rfl).2.2.2⟩

/-! ### Claim theorems: multi-stage retrieval on zero parsed sub-questions -/

/-- C3 (counterexample): when the decomposition parses zero
sub-questions, the caller does not fall back to single-stage retrieval:
with a language model whose output contains no numbered or dashed line,
the multi-stage path issues no retrieval-engine call at all (in
particular none for the original question) and the final answer is the
output of the synthesis prompt built from an empty context — an answer
synthesized from no sub-answers. -/
theorem multi_stage_no_fallback_on_empty_parse :
    break_down_query (fun _ => "I am not able to help") "Q" = [] ∧
      (safetyCheckStep1 (fun _ => "I am not able to help")
          (fun q => ("ANS:" ++ q, [])) "Q" true).engine_calls = [] ∧
      (safetyCheckStep1 (fun _ => "I am not able to help")
          (fun q => ("ANS:" ++ q, [])) "Q" true).answer = "I am not able to help" := by
  refine ⟨by decide, by decide, by decide⟩

/-- C3 (amended): when the decomposition parses zero sub-questions,
`multi_stage_retrieval` proceeds instead of falling back: it issues no
retrieval-engine calls, returns empty `sub_answers` and `all_sources`,
and synthesizes the final answer from the empty context; the aggregator
in multi-stage mode uses that result directly (still producing an
assessment rather than failing). -/
theorem multi_stage_empty_parse_behavior (llmComplete : String → String)
    (engine : String → String × List SourceNode) (question : String)
    (h : break_down_query llmComplete question = []) :
    (multi_stage_retrieval llmComplete engine question).sub_answers = [] ∧
      (multi_stage_retrieval llmComplete engine question).all_sources = [] ∧
      (multi_stage_retrieval llmComplete engine question).final_answer =
        llmComplete (synthesisPrompt question "") ∧
      (safetyCheckStep1 llmComplete engine question true).engine_calls = [] ∧
      (safetyCheckStep1 llmComplete engine question true).answer =
        llmComplete (synthesisPrompt question "") := by
  have hms : multi_stage_retrieval llmComplete engine question =
      ⟨question, [], [], llmComplete (synthesisPrompt question ""), []⟩ := by
    unfold multi_stage_retrieval
    rw [h]
    rfl
  have hstep : safetyCheckStep1 llmComplete engine question true =
      ⟨llmComplete (synthesisPrompt question ""), [], []⟩ := by
    unfold safetyCheckStep1
    rw [if_pos rfl]
    rw [hms]
  exact ⟨by rw [hms], by rw [hms], by rw [hms], by rw [hstep], by rw [hstep]⟩

/-- Witness for C3 (amended) at a concrete unparseable model output. -/
theorem multi_stage_empty_parse_behavior_witness :
    break_down_query (fun _ => "I cannot do that") "Q" = [] ∧
      (safetyCheckStep1 (fun _ => "I cannot do that") (fun q => (q, [])) "Q"
          true).engine_calls = [] :=
  ⟨by decide,
    (multi_stage_empty_parse_behavior (fun _ => "I cannot do that") (fun q => (q, [])) "Q"
      (by decide)).2.2.2.1⟩

/-! ### Claim theorem: the aggregator -/

lemma confidenceTier_spec (r : ℝ) :
    ((if (0.75 : ℝ) ≤ r then "HIGH CONFIDENCE"
        else if (0.5 : ℝ) ≤ r then "MEDIUM CONFIDENCE" else "LOW CONFIDENCE") =
        "HIGH CONFIDENCE" ↔ (0.75 : ℝ) ≤ r) ∧
      ((if (0.75 : ℝ) ≤ r then "HIGH CONFIDENCE"
          else if (0.5 : ℝ) ≤ r then "MEDIUM CONFIDENCE" else "LOW CONFIDENCE") =
          "MEDIUM CONFIDENCE" ↔ ((0.5 : ℝ) ≤ r ∧ ¬ (0.75 : ℝ) ≤ r)) ∧
      ((if (0.75 : ℝ) ≤ r then "HIGH CONFIDENCE"
          else if (0.5 : ℝ) ≤ r then "MEDIUM CONFIDENCE" else "LOW CONFIDENCE") =
          "LOW CONFIDENCE" ↔ ¬ (0.5 : ℝ) ≤ r) := by
  by_cases h75 : (0.75 : ℝ) ≤ r
  · rw [if_pos h75]
    refine ⟨⟨fun _ => h75, fun _ => rfl⟩,
      ⟨fun hc => absurd hc (by decide), fun hc => absurd h75 hc.2⟩,
      ⟨fun hc => absurd hc (by decide), fun hn => absurd (le_trans (by norm_num) h75) hn⟩⟩
  · rw [if_neg h75]
    by_cases h50 : (0.5 : ℝ) ≤ r
    · rw [if_pos h50]
      refine ⟨⟨fun hc => absurd hc (by decide), fun hc => absurd hc h75⟩,
        ⟨fun _ => ⟨h50, h75⟩, fun _ => rfl⟩,
        ⟨fun hc => absurd hc (by decide), fun hn => absurd h50 hn⟩⟩
    · rw [if_neg h50]
      refine ⟨⟨fun hc => absurd hc (by decide), fun hc => absurd hc h75⟩,
        ⟨fun hc => absurd hc (by decide), fun hc => absurd hc.1 h50⟩,
        ⟨fun _ => h50, fun _ => rfl⟩⟩

/-- C1: for every run of the aggregation step, `safety_score` is the
count of passed stages (attribution `≥ 0.6`, consistency `≥ 0.6`,
entropy confidence `HIGH`, and — only when the external check was
enabled and returned without a truthy error tag — external combined
score `≥ 0.6`); `safety_score ≤ max_safety_score` with
`max_safety_score ∈ {3, 4}`, equal to `4` exactly when external
checking was enabled and completed without error; and the confidence
tier (the code spells the tiers `HIGH CONFIDENCE` etc.) is `HIGH` iff
the ratio is `≥ 0.75`, `MEDIUM` iff it is in `[0.5, 0.75)` and `LOW`
iff it is `< 0.5` — both boundaries inclusive. -/
theorem aggregate_assessment_spec (attribution_score consistency_score : ℝ)
    (entropy_confidence : String) (enable_fact_check : Bool)
    (fact_check_result : Option FactCheckDict) :
    (aggregateAssessment attribution_score consistency_score entropy_confidence
        enable_fact_check fact_check_result).1 =
      (if 0.6 ≤ attribution_score then 1 else 0) +
        (if 0.6 ≤ consistency_score then 1 else 0) +
        (if entropy_confidence = "HIGH" then 1 else 0) +
        (if (enable_fact_check = true ∧
              ∃ d, fact_check_result = some d ∧ errTruthy d.error = false) ∧
            0.6 ≤ ((fact_check_result.map FactCheckDict.combined_score).getD none).getD 0
          then 1 else 0) ∧
    (aggregateAssessment attribution_score consistency_score entropy_confidence
        enable_fact_check fact_check_result).1 ≤
      (aggregateAssessment attribution_score consistency_score entropy_confidence
        enable_fact_check fact_check_result).2.1 ∧
    ((aggregateAssessment attribution_score consistency_score entropy_confidence
        enable_fact_check fact_check_result).2.1 = 3 ∨
      (aggregateAssessment attribution_score consistency_score entropy_confidence
        enable_fact_check fact_check_result).2.1 = 4) ∧
    ((aggregateAssessment attribution_score consistency_score entropy_confidence
        enable_fact_check fact_check_result).2.1 = 4 ↔
      (enable_fact_check = true ∧
        ∃ d, fact_check_result = some d ∧ errTruthy d.error = false)) ∧
    ((aggregateAssessment attribution_score consistency_score entropy_confidence
        enable_fact_check fact_check_result).2.2 = "HIGH CONFIDENCE" ↔
      (0.75 : ℝ) ≤
        ((aggregateAssessment attribution_score consistency_score entropy_confidence
            enable_fact_check fact_check_result).1 : ℝ) /
          ((aggregateAssessment attribution_score consistency_score entropy_confidence
            enable_fact_check fact_check_result).2.1 : ℝ)) ∧
    ((aggregateAssessment attribution_score consistency_score entropy_confidence
        enable_fact_check fact_check_result).2.2 = "MEDIUM CONFIDENCE" ↔
      ((0.5 : ℝ) ≤
          ((aggregateAssessment attribution_score consistency_score entropy_confidence
              enable_fact_check fact_check_result).1 : ℝ) /
            ((aggregateAssessment attribution_score consistency_score entropy_confidence
              enable_fact_check fact_check_result).2.1 : ℝ) ∧
        ¬ (0.75 : ℝ) ≤
          ((aggregateAssessment attribution_score consistency_score entropy_confidence
              enable_fact_check fact_check_result).1 : ℝ) /
            ((aggregateAssessment attribution_score consistency_score entropy_confidence
              enable_fact_check fact_check_result).2.1 : ℝ))) ∧
    ((aggregateAssessment attribution_score consistency_score entropy_confidence
        enable_fact_check fact_check_result).2.2 = "LOW CONFIDENCE" ↔
      ¬ (0.5 : ℝ) ≤
        ((aggregateAssessment attribution_score consistency_score entropy_confidence
            enable_fact_check fact_check_result).1 : ℝ) /
          ((aggregateAssessment attribution_score consistency_score entropy_confidence
            enable_fact_check fact_check_result).2.1 : ℝ)) := by
  have hfc : (enable_fact_check && fact_check_result.isSome &&
      !(errTruthy ((fact_check_result.map FactCheckDict.error).getD none))) = true ↔
      (enable_fact_check = true ∧
        ∃ d, fact_check_result = some d ∧ errTruthy d.error = false) := by
    cases fact_check_result with
    | none => simp [errTruthy]
    | some d => simp [Bool.and_eq_true, Bool.not_eq_true']
  simp only [aggregateAssessment]
  set E : ℝ := ((fact_check_result.map FactCheckDict.combined_score).getD none).getD 0 with hE
  set B : Bool := enable_fact_check && fact_check_result.isSome &&
    !(errTruthy ((fact_check_result.map FactCheckDict.error).getD none)) with hB
  have h1 : (if 0.6 ≤ attribution_score then (1 : ℕ) else 0) ≤ 1 := by split_ifs <;> omega
  have h2 : (if 0.6 ≤ consistency_score then (1 : ℕ) else 0) ≤ 1 := by split_ifs <;> omega
  have h3 : (if entropy_confidence = "HIGH" then (1 : ℕ) else 0) ≤ 1 := by split_ifs <;> omega
  refine ⟨?_, ?_, ?_, ?_,
    (confidenceTier_spec _).1, (confidenceTier_spec _).2.1, (confidenceTier_spec _).2.2⟩
  · by_cases hx : 0.6 ≤ E
    · by_cases hb : B = true
      · have hp1 : B = true ∧ 0.6 ≤ E := ⟨hb, hx⟩
        have hp2 : (enable_fact_check = true ∧
            ∃ d, fact_check_result = some d ∧ errTruthy d.error = false) ∧ 0.6 ≤ E :=
          ⟨hfc.1 hb, hx⟩
        rw [if_pos hp1, if_pos hp2]
      · have hd1 : ¬ (B = true ∧ 0.6 ≤ E) := fun hc => hb hc.1
        have hd2 : ¬ ((enable_fact_check = true ∧
            ∃ d, fact_check_result = some d ∧ errTruthy d.error = false) ∧ 0.6 ≤ E) :=
          fun hc => hb (hfc.2 hc.1)
        rw [if_neg hd1, if_neg hd2]
    · have hd1 : ¬ (B = true ∧ 0.6 ≤ E) := fun hc => hx hc.2
      have hd2 : ¬ ((enable_fact_check = true ∧
          ∃ d, fact_check_result = some d ∧ errTruthy d.error = false) ∧ 0.6 ≤ E) :=
        fun hc => hx hc.2
      rw [if_neg hd1, if_neg hd2]
  · by_cases hb : B = true
    · rw [if_pos hb]
      have h4 : (if B = true ∧ 0.6 ≤ E then (1 : ℕ) else 0) ≤ 1 := by split_ifs <;> omega
      omega
    · rw [if_neg hb]
      have h4 : (if B = true ∧ 0.6 ≤ E then (1 : ℕ) else 0) = 0 := by
        split_ifs with hc
        · exact absurd hc.1 hb
        · rfl
      omega
  · by_cases hb : B = true
    · rw [if_pos hb]
      exact Or.inr rfl
    · rw [if_neg hb]
      exact Or.inl rfl
  · by_cases hb : B = true
    · rw [if_pos hb]
      exact ⟨fun _ => hfc.1 hb, fun _ => rfl⟩
    · rw [if_neg hb]
      exact ⟨fun hc => absurd hc (by decide), fun hp => absurd (hfc.2 hp) hb⟩

end SafetyPipeline
